import Mathlib

/-!
Shallow embedding of `imh2fits.py`, a converter for IRAF OIF images
(".imh" header files plus ".pix" pixel files) to FITS.  The Python source
is translated definition by definition: byte buffers become `List Nat`
(each element one byte), Python strings become `String`, fallible Python
code (raised exceptions) becomes `Except String _`, and `None`-able
attributes become `Option _`.  Python library primitives used by the
source (`str.find`, negative indexing, `str.strip`, `ast.literal_eval`,
`struct.unpack`, `os.path.splitext`, numpy dtype/reshape) are modelled
explicitly below, each with a doc comment stating the modelled scope.
-/

/-- The single-quote character (ASCII 39), written via `Char.ofNat`. -/
def sqChar : Char := Char.ofNat 39

deriving instance DecidableEq for Except

/-- The single-quote character as a one-character string. -/
def sqStr : String := String.singleton sqChar

/-- Python slice `s[:n]` (character counted, like all slices here). -/
def pyTake (s : String) (n : Nat) : String := String.mk (s.toList.take n)

/-- Python slice `s[n:]`. -/
def pyDrop (s : String) (n : Nat) : String := String.mk (s.toList.drop n)

/-- The whitespace characters removed by Python `str.strip()`. -/
def pyWs (c : Char) : Bool :=
  c = ' ' ∨ c = Char.ofNat 9 ∨ c = Char.ofNat 10 ∨ c = Char.ofNat 13 ∨
    c = Char.ofNat 11 ∨ c = Char.ofNat 12

/-- Model of Python `str.strip()`: remove leading and trailing whitespace. -/
def pyStripWs (s : String) : String :=
  let l := s.toList.dropWhile pyWs
  String.mk ((l.reverse.dropWhile pyWs).reverse)

/-- Split a list at every occurrence of `c`, keeping empty pieces, like
Python `split` on bytes and strings (always at least one piece). -/
def pySplit {α : Type} [DecidableEq α] : List α → α → List (List α)
  | [], _ => [[]]
  | x :: xs, c =>
    if x = c then [] :: pySplit xs c
    else
      match pySplit xs c with
      | h :: t => (x :: h) :: t
      | [] => [[x]]

/-- Model of Python `str.split(c)` for a one-character separator. -/
def pySplitChar (s : String) (c : Char) : List String :=
  (pySplit s.toList c).map String.mk

/-- ASCII lower-casing of one character, as Python `str.lower` does on
the ASCII range relevant here. -/
def lowerChar (c : Char) : Char :=
  if 'A' ≤ c ∧ c ≤ 'Z' then Char.ofNat (c.toNat + 32) else c

/-- Model of Python `str.lower()` (ASCII range). -/
def pyLower (s : String) : String := String.mk (s.toList.map lowerChar)

/-- Model of Python `str.replace` with empty replacement: remove every
occurrence of the character `c`. -/
def pyRemoveChar (s : String) (c : Char) : String :=
  String.mk (s.toList.filter (fun x => ¬ x = c))

/-- Model of Python `str.find(c)`: index of the first occurrence of the
character `c`, or `-1` when absent. -/
def pyFind (s : String) (c : Char) : Int :=
  match s.toList.findIdx? (fun x => x = c) with
  | some n => (n : Int)
  | none => -1

/-- Model of Python string indexing `s[i]` (single character result),
including negative-index wraparound; out-of-range indices raise. -/
def pyCharAt (s : String) (i : Int) : Except String String :=
  let n : Int := (s.toList.length : Int)
  let j : Int := if i < 0 then i + n else i
  if 0 ≤ j ∧ j < n then
    match s.toList.get? j.toNat with
    | some ch => Except.ok (String.singleton ch)
    | none => Except.error "IndexError: string index out of range"
  else
    Except.error "IndexError: string index out of range"

/-- Model of Python list indexing `l[i]` for a natural index; raises
`IndexError` when out of range. -/
def pyIndexList (l : List String) (i : Nat) : Except String String :=
  match l.get? i with
  | some x => Except.ok x
  | none => Except.error "IndexError: list index out of range"

/-- Model of Python `str.strip(ch)`: remove every leading and trailing
occurrence of the character `ch`. -/
def stripChar (s : String) (ch : Char) : String :=
  let l := s.toList.dropWhile (fun x => x = ch)
  String.mk ((l.reverse.dropWhile (fun x => x = ch)).reverse)

/-- Digits of a decimal literal folded into a natural number. -/
def natOfDigits (ds : List Char) : Nat :=
  ds.foldl (fun a c => a * 10 + (c.toNat - 48)) 0

/-- Model of a Python decimal integer literal as accepted by
`ast.literal_eval`: optional sign, then digits, with leading zeros only
allowed when every digit is zero.  Hex/octal/binary forms and underscore
separators are outside the modelled scope (the OIF metadata exercised
here is plain decimal). -/
def parseIntLit (s : String) : Option Int :=
  let cs := s.toList
  let (sign, ds) : Int × List Char :=
    match cs with
    | '+' :: r => (1, r)
    | '-' :: r => (-1, r)
    | r => (1, r)
  if ds ≠ [] ∧ ds.all Char.isDigit ∧
      (ds.headD '0' = '0' → ds.all (fun c => c = '0')) then
    some (sign * (natOfDigits ds : Int))
  else
    none

/-- Mantissa check for a float literal: digit/dot characters only, at most
one dot, at least one digit. -/
def floatMantOk (cs : List Char) : Bool :=
  cs.all (fun c => c.isDigit ∨ c = '.') ∧ cs.count '.' ≤ 1 ∧
    cs.any Char.isDigit

/-- Exponent part check for a float literal: optional sign then one or
more digits. -/
def floatExpOk (cs : List Char) : Bool :=
  let ds := match cs with
    | '+' :: r => r
    | '-' :: r => r
    | r => r
  ds ≠ [] ∧ ds.all Char.isDigit

/-- Model of a Python decimal/exponential float literal as accepted by
`ast.literal_eval` (e.g. `120.5`, `.5`, `5.`, `1e3`, `-2.5E-4`); a form
with neither a dot nor an exponent is an integer literal, not a float. -/
def parseFloatLit (s : String) : Bool :=
  let cs := s.toList
  let cs := match cs with
    | '+' :: r => r
    | '-' :: r => r
    | r => r
  let mant := cs.takeWhile (fun c => ¬ (c = 'e' ∨ c = 'E'))
  let rest := cs.dropWhile (fun c => ¬ (c = 'e' ∨ c = 'E'))
  match rest with
  | [] => floatMantOk mant ∧ mant.count '.' = 1
  | _ :: ex => floatMantOk mant ∧ floatExpOk ex

/-- Model of a simple Python quoted string literal: matching single or
double quotes around an interior free of that quote character and of
backslashes (escape sequences are outside the modelled scope). -/
def parseStrLit (s : String) : Option String :=
  let cs := s.toList
  let q1 := sqChar
  let q2 := Char.ofNat 34
  match cs with
  | [] => none
  | c :: rest =>
    if rest = [] then none
    else
      let interior := rest.dropLast
      let last := rest.getLastD c
      if (c = q1 ∧ last = q1 ∧ interior.all (fun x => ¬ (x = q1 ∨ x = '\\'))) ∨
         (c = q2 ∧ last = q2 ∧ interior.all (fun x => ¬ (x = q2 ∨ x = '\\'))) then
        some (String.mk interior)
      else
        none

/-- Result classification of `ast.literal_eval` on a scalar literal. -/
inductive PyLit where
  | lint (i : Int)
  | lfloat (s : String)
  | lstr (s : String)
  | lother
deriving DecidableEq, Repr

/-- Model of Python `ast.literal_eval` on the scalar literals the OIF
metadata can contain: surrounding whitespace is ignored; `True`, `False`
and `None` are constant literals; then integer, float and quoted-string
literals are recognized; anything else (in particular a bare word) raises,
which is modelled as `none`.  Container and complex literals are outside
the modelled scope. -/
def literalEval (s : String) : Option PyLit :=
  let t := pyStripWs s
  if t = "True" ∨ t = "False" ∨ t = "None" then
    some PyLit.lother
  else
    match parseIntLit t with
    | some i => some (PyLit.lint i)
    | none =>
      if parseFloatLit t then
        some (PyLit.lfloat t)
      else
        match parseStrLit t with
        | some str => some (PyLit.lstr str)
        | none => none

/-- The Python value stored into the FITS header for one keyword: the
source leaves strings as `str` and converts numeric values with
`int(v)` / `float(v)` (the float's source text is retained here). -/
inductive PyVal where
  | pstr (s : String)
  | pint (i : Int)
  | pfloat (s : String)
deriving DecidableEq, Repr

/-- One translated metadata entry: FITS key, value and comment, as
assigned by `hdu.header[k] = (v, c)` in `OIFImage.toFITS`. -/
structure KwEntry where
  key : String
  value : PyVal
  comment : String
deriving DecidableEq, Repr

/-- Key-field width from `OIFImage.toFITS`:
`st = 7 if key[:7] in ['HISTORY', 'COMMENT'] else 8`. -/
def keyWidth (key : String) : Nat :=
  if pyTake key 7 ∈ (["HISTORY", "COMMENT"] : List String) then 7 else 8

/-- The key/value/comment split of one metadata line, translated from
`OIFImage.toFITS`:
`k = key[:st].strip().replace('/', '')`; then either the two-quote
branch (`v` is the quoted substring re-wrapped, `c` is the single
character `key[key[st+1:].find('/')]` stripped), or the slash branch
(`v` before the slash, `c = key[st:].split('/')[1]`), or the fallback
(`v = key[st+1:].strip()`, `c = ''`). -/
def extractKVC (key : String) : Except String (String × String × String) := do
  let st := keyWidth key
  let k := pyRemoveChar (pyStripWs (pyTake key st)) '/'
  let rest := pyDrop key (st + 1)
  if rest.toList.count sqChar = 2 then
    let mid ← pyIndexList (pySplitChar rest sqChar) 1
    let ch ← pyCharAt key (pyFind rest '/')
    pure (k, sqStr ++ mid ++ sqStr, pyStripWs ch)
  else if pyFind key '/' > 0 then
    let c ← pyIndexList (pySplitChar (pyDrop key st) '/') 1
    pure (k, pyStripWs ((pySplitChar (pyDrop key (st + 1)) '/').headD ""), pyStripWs c)
  else
    pure (k, pyStripWs (pyDrop key (st + 1)), "")

/-- Translation of one metadata line into a FITS header entry, from the
keyword loop of `OIFImage.toFITS`: blank lines are skipped (`none`);
HISTORY/COMMENT lines keep their split value as a string; boolean
keywords (`t`, `f`, `true`, `false`, case-insensitive) pass through
unmodified; otherwise `ast.literal_eval` classifies the value as int
(`int(v)`), float (`float(v)`) or fallback string (`v.strip("'")`), and
a failed literal parse raises. -/
def translateKeyword (key : String) : Except String (Option KwEntry) :=
  if pyStripWs key = "" then
    Except.ok none
  else
    match extractKVC key with
    | Except.error e => Except.error e
    | Except.ok (k, v, c) =>
      if pyTake key 7 ∈ (["HISTORY", "COMMENT"] : List String) then
        Except.ok (some ⟨k, PyVal.pstr v, c⟩)
      else if pyLower v ∈ (["t", "f", "true", "false"] : List String) then
        Except.ok (some ⟨k, PyVal.pstr v, c⟩)
      else
        match literalEval v with
        | none => Except.error ("ValueError: malformed node or string: " ++ v)
        | some (PyLit.lint i) => Except.ok (some ⟨k, PyVal.pint i, c⟩)
        | some (PyLit.lfloat _) => Except.ok (some ⟨k, PyVal.pfloat v, c⟩)
        | some (PyLit.lstr _) => Except.ok (some ⟨k, PyVal.pstr (stripChar v sqChar), c⟩)
        | some PyLit.lother => Except.ok (some ⟨k, PyVal.pstr (stripChar v sqChar), c⟩)

/-- The whole keyword loop of `OIFImage.toFITS`: blank lines contribute
nothing, other lines are translated in order, and the first line whose
literal parse raises aborts the translation. -/
def translateKeywords (keys : List String) : Except String (List KwEntry) :=
  keys.foldlM
    (fun acc key => do
      match ← translateKeyword key with
      | none => pure acc
      | some e => pure (acc ++ [e]))
    []

/-- OIF image file roles, from the `V1HDR`/`V1PIX`/`V2HDR`/`V2PIX`
constants of the source (Python encodes "unrecognized" as `None`, here
the surrounding `Option`). -/
inductive FileRole where
  | v1hdr
  | v1pix
  | v2hdr
  | v2pix
deriving DecidableEq, Repr

/-- `V1HDR_MAGIC_BIG_ENDIAN`: "imhdr" as UTF-16 big-endian bytes. -/
def V1HDR_MAGIC_BIG_ENDIAN : List Nat := [0, 105, 0, 109, 0, 104, 0, 100, 0, 114]

/-- `V1PIX_MAGIC_BIG_ENDIAN`: "impix" as UTF-16 big-endian bytes. -/
def V1PIX_MAGIC_BIG_ENDIAN : List Nat := [0, 105, 0, 109, 0, 112, 0, 105, 0, 120]

/-- `V1HDR_MAGIC_LITTLE_ENDIAN`: "imhdr" as UTF-16 little-endian bytes. -/
def V1HDR_MAGIC_LITTLE_ENDIAN : List Nat := [105, 0, 109, 0, 104, 0, 100, 0, 114, 0]

/-- `V1PIX_MAGIC_LITTLE_ENDIAN`: "impix" as UTF-16 little-endian bytes. -/
def V1PIX_MAGIC_LITTLE_ENDIAN : List Nat := [105, 0, 109, 0, 112, 0, 105, 0, 120, 0]

/-- `V2HDR_MAGIC`: the five bytes of "imhv2". -/
def V2HDR_MAGIC : List Nat := [105, 109, 104, 118, 50]

/-- `V2PIX_MAGIC`: the five bytes of "impv2". -/
def V2PIX_MAGIC : List Nat := [105, 109, 112, 118, 50]

/-- `OIFImage.fileType`, translated byte for byte.  The host byte order
(`sys.byteorder`) is passed as `hostLittle` (`true` means "little").
Returns the detected role and the needs-swap flag, or `none` (Python's
`(None, None)`) when the first ten bytes match no pattern. -/
def fileType (data : List Nat) (hostLittle : Bool) : Option (FileRole × Bool) :=
  let magic := data.take 10
  if magic = V1HDR_MAGIC_BIG_ENDIAN then some (FileRole.v1hdr, hostLittle)
  else if magic = V1PIX_MAGIC_BIG_ENDIAN then some (FileRole.v1pix, hostLittle)
  else if magic = V1HDR_MAGIC_LITTLE_ENDIAN then some (FileRole.v1hdr, !hostLittle)
  else if magic = V1PIX_MAGIC_LITTLE_ENDIAN then some (FileRole.v1pix, !hostLittle)
  else if magic.take 5 = V2HDR_MAGIC then some (FileRole.v2hdr, hostLittle)
  else if magic.take 5 = V2PIX_MAGIC then some (FileRole.v2pix, hostLittle)
  else none

/-- Python byte-string `.replace(b'\x00', b'')`: strip every null byte. -/
def stripNulls (l : List Nat) : List Nat := l.filter (fun b => ¬ b = 0)

/-- Python slice `l[a:b]` on a byte string (for `0 ≤ a ≤ b`). -/
def pySlice (l : List Nat) (a b : Nat) : List Nat := (l.drop a).take (b - a)

/-- Model of `bytes.decode('utf-8')`, byte by byte; faithful for the
ASCII metadata the claims exercise (multi-byte UTF-8 sequences and the
decode error on invalid bytes are outside the modelled scope). -/
def bytesToStr (l : List Nat) : String := String.mk (l.map Char.ofNat)

/-- Model of `struct.unpack` for one 4-byte signed 32-bit integer at the
byte order selected by `big`; like `struct`, any other buffer length is
an error. -/
def unpackI32 (bs : List Nat) (big : Bool) : Except String Int :=
  if bs.length = 4 then
    let b := if big then bs else bs.reverse
    let u : Nat := b.foldl (fun a x => a * 256 + x) 0
    Except.ok (if u < 2 ^ 31 then (u : Int) else (u : Int) - 2 ^ 32)
  else
    Except.error "struct.error: unpack requires a buffer of 4 bytes"

/-- Model of `struct.unpack` for seven consecutive 4-byte signed 32-bit
integers (the source's `ifmt+'iiiiii'` format on a 28-byte slice). -/
def unpackI32x7 (bs : List Nat) (big : Bool) : Except String (List Int) :=
  if bs.length = 28 then
    (List.range 7).mapM (fun k => unpackI32 ((bs.drop (4 * k)).take 4) big)
  else
    Except.error "struct.error: unpack requires a buffer of 28 bytes"

/-- Python `bytes.split(b'\0\0')[0]`: the prefix before the first
occurrence of two adjacent null bytes. -/
def takeUntilDoubleNull : List Nat → List Nat
  | 0 :: 0 :: _ => []
  | x :: rest => x :: takeUntilDoubleNull rest
  | [] => []

/-- The header-integer byte order of the source:
`ifmt = '>i' if (sys.byteorder == 'little' and self.swap) else '<i'`,
then inverted when the force-swap option is set.  `true` means
big-endian. -/
def ifmtBig (hostLittle : Bool) (swap : Option Bool) (forceSwap : Bool) : Bool :=
  let b := hostLittle && (match swap with | some true => true | _ => false)
  if forceSwap then !b else b

/-- The attributes an `OIFHeader` object carries after `__init__`:
fields that are only assigned inside the V1/V2 branches are `Option`s
(`none` when the branch did not run), `userarea` starts as the empty
list, and `title` starts as the empty string (`none` here). -/
structure OIFHeaderRec where
  type : Option FileRole
  swap : Option Bool
  userarea : List Nat
  keywords : Option (List String)
  title : Option (List Nat)
  pixtype : Option Int
  history : Option (List Nat)
  ndim : Option Int
  dims : Option (List Int)
  pdims : Option (List Int)
  date : Option Int
deriving DecidableEq, Repr

/-- The `OIFHeader` state when the detected role is neither `V1HDR` nor
`V2HDR`: only the defaults assigned before the branch survive; no header
field is decoded. -/
def blankHeaderState (ft : Option (FileRole × Bool)) : OIFHeaderRec :=
  { type := ft.map Prod.fst, swap := ft.map Prod.snd, userarea := [],
    keywords := none, title := none, pixtype := none, history := none,
    ndim := none, dims := none, pdims := none, date := none }

/-- The newline split of the null-stripped V1 metadata block
(`self.content[2052:].replace(b'\x00', b'').split(b'\n')`), before the
source's `[:-1]` discard. -/
def v1UserLines (content : List Nat) : List (List Nat) :=
  pySplit (stripNulls (content.drop 2052)) 10

/-- The newline split of the null-stripped V2 metadata block
(`self.content[2046:].replace(b'\x00', b'').split(b'\n')`). -/
def v2UserLines (content : List Nat) : List (List Nat) :=
  pySplit (stripNulls (content.drop 2046)) 10

/-- The IRAF timestamp epoch shift `EPOCH_1980 = 10*(3600*24*365.25)`
(an exact integer, `315576000`). -/
def EPOCH_1980 : Int := 315576000

/-- The five `struct.unpack` reads of the V1 header branch of
`OIFHeader.__init__`, in source order: pixel-type code at 16, ndim at
20, seven ints of logical dims at 24, seven of physical dims at 52,
timestamp at 108 (all within `self.hdr = content[:2052]`). -/
def v1Unpacks (content : List Nat) (big : Bool) :
    Except String (Int × Int × List Int × List Int × Int) := do
  let hdr := content.take 2052
  let pixtype ← unpackI32 (pySlice hdr 16 20) big
  let ndim ← unpackI32 (pySlice hdr 20 24) big
  let dims ← unpackI32x7 (pySlice hdr 24 52) big
  let pdims ← unpackI32x7 (pySlice hdr 52 80) big
  let date ← unpackI32 (pySlice hdr 108 112) big
  pure (pixtype, ndim, dims, pdims, date)

/-- The five `struct.unpack` reads of the V2 header branch of
`OIFHeader.__init__`: pixel-type code at 10, ndim at 18, logical dims at
22, physical dims at 50, timestamp at 106 (within
`self.hdr = content[:2046]`). -/
def v2Unpacks (content : List Nat) (big : Bool) :
    Except String (Int × Int × List Int × List Int × Int) := do
  let hdr := content.take 2046
  let pixtype ← unpackI32 (pySlice hdr 10 14) big
  let ndim ← unpackI32 (pySlice hdr 18 22) big
  let dims ← unpackI32x7 (pySlice hdr 22 50) big
  let pdims ← unpackI32x7 (pySlice hdr 50 78) big
  let date ← unpackI32 (pySlice hdr 106 110) big
  pure (pixtype, ndim, dims, pdims, date)

/-- `OIFHeader.__init__` after the file has been read, translated from
the source: detect the role, pick the integer byte order, then decode
the V1 or V2 fixed-offset header region and metadata block; a role that
is neither `V1HDR` nor `V2HDR` leaves every header field undecoded (the
source has no else-branch).  V1 discards the last element of the
metadata-line split (`[:-1]`); V2 keeps all elements. -/
def headerDecode (content : List Nat) (hostLittle forceSwap : Bool) :
    Except String OIFHeaderRec :=
  match fileType content hostLittle with
  | some (FileRole.v1hdr, sw) =>
    let big := ifmtBig hostLittle (some sw) forceSwap
    match v1Unpacks content big with
    | Except.error e => Except.error e
    | Except.ok (pixtype, ndim, dims, pdims, date) =>
      Except.ok
        { type := some FileRole.v1hdr, swap := some sw,
          userarea := stripNulls (content.drop 2052),
          keywords := some (((v1UserLines content).dropLast).map bytesToStr),
          title := some (stripNulls (takeUntilDoubleNull
            (pySlice (content.take 2052) 732 888))),
          pixtype := some pixtype,
          history := some ((stripNulls (pySlice content 892 2048)).filter
            (fun b => ¬ b = 10)),
          ndim := some ndim, dims := some dims, pdims := some pdims,
          date := some (date + EPOCH_1980) }
  | some (FileRole.v2hdr, sw) =>
    let big := ifmtBig hostLittle (some sw) forceSwap
    match v2Unpacks content big with
    | Except.error e => Except.error e
    | Except.ok (pixtype, ndim, dims, pdims, date) =>
      Except.ok
        { type := some FileRole.v2hdr, swap := some sw,
          userarea := stripNulls (content.drop 2046),
          keywords := some ((v2UserLines content).map bytesToStr),
          title := some (stripNulls (pySlice (content.take 2046) 638 718)),
          pixtype := some pixtype,
          history := some ((stripNulls (pySlice content 990 2048)).filter
            (fun b => ¬ b = 10)),
          ndim := some ndim, dims := some dims, pdims := some pdims,
          date := some (date + EPOCH_1980) }
  | ft => Except.ok (blankHeaderState ft)

/-- Model of `os.path.splitext(base)[1]`: the extension starts at the
last dot, unless every character before that dot is itself a dot (then
there is no extension). -/
def splitextExt (base : String) : String :=
  let cs := base.toList
  match cs.reverse.findIdx? (fun c => c = '.') with
  | none => ""
  | some k =>
    let i := cs.length - 1 - k
    if (cs.take i).all (fun c => c = '.') then "" else String.mk (cs.drop i)

/-- Model of `os.path.basename` on POSIX paths: the component after the
last slash. -/
def pyBasename (p : String) : String := (pySplitChar p '/').getLastD ""

/-- `OIFHeader.__init__` including its extension gate: the constructor
raises `Unknown image header extension` for any path whose extension is
not `.imh`, before the file contents (passed here as `content`) are
consulted. -/
def oifHeaderInit (path : String) (content : List Nat)
    (hostLittle forceSwap : Bool) : Except String OIFHeaderRec :=
  if ¬ splitextExt (pyBasename path) = ".imh" then
    Except.error "Unknown image header extension"
  else
    headerDecode content hostLittle forceSwap

/-- The `pixtypes` dict of the source, mapping IRAF pixel-type codes to
numpy dtype code strings: `TY_SHORT(3) ↦ 'i2'`, `TY_USHORT(11) ↦ 'U2'`,
`TY_INT(4) ↦ 'i4'`, `TY_LONG(5) ↦ 'i4'`, `TY_REAL(6) ↦ 'f4'`,
`TY_DOUBLE(7) ↦ 'f8'`; any other code is a `KeyError` (`none`). -/
def pixtypes (t : Int) : Option String :=
  if t = 3 then some "i2"
  else if t = 11 then some "U2"
  else if t = 4 then some "i4"
  else if t = 5 then some "i4"
  else if t = 6 then some "f4"
  else if t = 7 then some "f8"
  else none

/-- The numpy dtype kinds relevant here. -/
inductive NpKind where
  | signedInt
  | unsignedInt
  | floatKind
  | unicodeStr
deriving DecidableEq, Repr

/-- A numpy dtype: its kind and its element size in bytes. -/
structure NpDtype where
  kind : NpKind
  itemsize : Nat
deriving DecidableEq, Repr

/-- Model of numpy dtype construction for the code strings that can
reach `np.dtype` in this program.  Note `'U2'` (capital U) is numpy's
2-character Unicode string dtype, 4 bytes per character, so 8 bytes per
element — not the 2-byte unsigned integer dtype, which is spelled
`'u2'`. -/
def npDtypeOfCode : String → Option NpDtype
  | "i2" => some ⟨NpKind.signedInt, 2⟩
  | "u2" => some ⟨NpKind.unsignedInt, 2⟩
  | "i4" => some ⟨NpKind.signedInt, 4⟩
  | "f4" => some ⟨NpKind.floatKind, 4⟩
  | "f8" => some ⟨NpKind.floatKind, 8⟩
  | "U2" => some ⟨NpKind.unicodeStr, 8⟩
  | _ => none

/-- Model of `np.frombuffer`: cut the byte buffer into consecutive
`itemsize`-byte elements and resolve each at the selected byte order.
An element is kept as its byte-order-resolved bit pattern (a `Nat`);
the numeric reinterpretation (two's complement, IEEE 754) is not needed
by any claim and is not modelled. -/
def decodeElems (data : List Nat) (itemsize : Nat) (big : Bool) : List Nat :=
  (List.range (data.length / itemsize)).map (fun k =>
    let piece := (data.drop (k * itemsize)).take itemsize
    let b := if big then piece else piece.reverse
    b.foldl (fun a x => a * 256 + x) 0)

/-- Python slice `l[:n]` with an `int` bound, including the
negative-bound wraparound. -/
def pySliceTo {α : Type} (l : List α) (n : Int) : List α :=
  let m : Int := if n < 0 then (l.length : Int) + n else n
  l.take m.toNat

/-- Model of `np.reshape(l, (rows, cols))` in row-major (C) order: row
`r` holds elements `r*cols .. r*cols+cols-1`. -/
def npReshape {α : Type} (l : List α) (rows cols : Nat) : List (List α) :=
  (List.range rows).map (fun r => (l.drop (r * cols)).take cols)

/-- Model of numpy `.T` on a rectangular 2-D array: column `c` of the
input becomes row `c` of the output. -/
def npTranspose {α : Type} (m : List (List α)) : List (List α) :=
  match m with
  | [] => []
  | r :: _ => (List.range r.length).map (fun c => m.filterMap (fun row => row.get? c))

/-- `np.reshape(raw_pixels, (self.pdims[1], -1)).T` from
`OIFPixfile.readPixels`: the inferred `-1` dimension is
`raw.length / rows`. -/
def physPixels (raw : List Nat) (rows : Nat) : List (List Nat) :=
  npTranspose (npReshape raw rows (raw.length / rows))

/-- `phys_pixels[:self.dims[0], :self.dims[1]]`: the logical crop of the
transposed physical array. -/
def logicalPixels (raw : List Nat) (rows : Nat) (d0 d1 : Int) : List (List Nat) :=
  (pySliceTo (physPixels raw rows) d0).map (fun r => pySliceTo r d1)

/-- The pixel array produced by `OIFPixfile.readPixels`: 1-D or 2-D. -/
inductive Pixels where
  | one (elems : List Nat)
  | two (rows : List (List Nat))
deriving DecidableEq, Repr

/-- Model of Python list indexing `l[i]` on an integer list. -/
def pyIndexInt (l : List Int) (i : Nat) : Except String Int :=
  match l.get? i with
  | some x => Except.ok x
  | none => Except.error "IndexError: list index out of range"

/-- The byte order used for the V2 pixel data in
`OIFPixfile.readPixels`: `'<' if (sys.byteorder == 'little' and
self.swapped) else '>'`, inverted by the force-swap option; `true`
means big-endian. -/
def v2PixBig (hostLittle swapped forceSwap : Bool) : Bool :=
  let b := !(hostLittle && swapped)
  if forceSwap then !b else b

/-- The body of `OIFPixfile.readPixels` after the byte order has been
resolved to `big`: look up the dtype for the pixel-type code (a wrong
code is a `KeyError`), reinterpret the value buffer, then slice by
dimensionality — `raw[:dims[0]]` for ndim 1, reshape/transpose/crop for
ndim 2, and the `Images >2 dimensions not supported` exception
otherwise. -/
def readPixelsCore (ptype : Int) (big : Bool) (ndim : Int)
    (dims pdims : List Int) (data : List Nat) : Except String Pixels :=
  match pixtypes ptype with
  | none => Except.error "KeyError: unknown pixel type code"
  | some code =>
    match npDtypeOfCode code with
    | none => Except.error "numpy: data type not understood"
    | some dt =>
      if data.length % dt.itemsize = 0 then
        let raw := decodeElems data dt.itemsize big
        if ndim = 1 then
          match pyIndexInt dims 0 with
          | Except.error e => Except.error e
          | Except.ok d0 => Except.ok (Pixels.one (pySliceTo raw d0))
        else if ndim = 2 then
          match pyIndexInt pdims 1 with
          | Except.error e => Except.error e
          | Except.ok p1 =>
            if 0 < p1 ∧ raw.length % p1.toNat = 0 then
              match pyIndexInt dims 0, pyIndexInt dims 1 with
              | Except.ok d0, Except.ok d1 =>
                Except.ok (Pixels.two (logicalPixels raw p1.toNat d0 d1))
              | Except.error e, _ => Except.error e
              | _, Except.error e => Except.error e
            else
              Except.error "ValueError: cannot reshape array"
        else
          Except.error "Error: Images >2 dimensions not supported"
      else
        Except.error "ValueError: buffer size must be a multiple of element size"

/-- The attributes an `OIFPixfile` object carries after `__init__`. -/
structure OIFPixRec where
  type : Option FileRole
  swap : Option Bool
  swapped : Option Bool
  pixtype : Option Int
  ndim : Option Int
  dims : Option (List Int)
  pdims : Option (List Int)
  data : List Nat
  pixels : Pixels
deriving DecidableEq, Repr

/-- `OIFPixfile.__init__` after the file has been read, translated from
the source.  For `V1PIX` the pixel byte order reuses the magic-derived
swap flag; for `V2PIX` it comes from the explicit swap-indicator integer
at header offset 14 (`== 1`).  For any other role `readPixels` touches
the never-assigned `self.swapped` attribute, which raises. -/
def pixfileDecode (content : List Nat) (hostLittle forceSwap : Bool) :
    Except String OIFPixRec :=
  match fileType content hostLittle with
  | some (FileRole.v1pix, sw) => do
    let big := ifmtBig hostLittle (some sw) forceSwap
    let hdr := content.take 1024
    let pixtype ← unpackI32 (pySlice hdr 16 20) big
    let ndim ← unpackI32 (pySlice hdr 20 24) big
    let dims ← unpackI32x7 (pySlice hdr 24 52) big
    let pdims ← unpackI32x7 (pySlice hdr 52 80) big
    let data := content.drop 1024
    let pixels ← readPixelsCore pixtype (ifmtBig hostLittle (some sw) forceSwap)
      ndim dims pdims data
    pure { type := some FileRole.v1pix, swap := some sw, swapped := some sw,
           pixtype := some pixtype, ndim := some ndim, dims := some dims,
           pdims := some pdims, data := data, pixels := pixels }
  | some (FileRole.v2pix, sw) => do
    let big := ifmtBig hostLittle (some sw) forceSwap
    let hdr := content.take 2048
    let sv ← unpackI32 (pySlice hdr 14 18) big
    let swapped : Bool := sv = 1
    let pixtype ← unpackI32 (pySlice hdr 10 14) big
    let ndim ← unpackI32 (pySlice hdr 18 22) big
    let dims ← unpackI32x7 (pySlice hdr 22 50) big
    let pdims ← unpackI32x7 (pySlice hdr 50 78) big
    let data := content.drop 2048
    let pixels ← readPixelsCore pixtype (v2PixBig hostLittle swapped forceSwap)
      ndim dims pdims data
    pure { type := some FileRole.v2pix, swap := some sw, swapped := some swapped,
           pixtype := some pixtype, ndim := some ndim, dims := some dims,
           pdims := some pdims, data := data, pixels := pixels }
  | _ => Except.error "AttributeError: swapped"

/-- `OIFPixfile.__init__` including its extension gate: the constructor
raises `Unknown image pixfile extension` for any path whose extension is
not `.pix`, before the file contents are consulted. -/
def oifPixInit (path : String) (content : List Nat)
    (hostLittle forceSwap : Bool) : Except String OIFPixRec :=
  if ¬ splitextExt (pyBasename path) = ".pix" then
    Except.error "Unknown image pixfile extension"
  else
    pixfileDecode content hostLittle forceSwap

/-- The C2/C4/C1 example lines as concrete strings. -/
def c2Line : String := "OBJECT  = " ++ sqStr ++ "M31" ++ sqStr ++ "            / target name"

/-- A HISTORY line whose trailing text contains a slash. -/
def c4Line : String := "HISTORY a/b"

/-- A metadata line whose value text is a bare word (no quotes). -/
def c1wKey : String := "KEYW    = " ++ sqStr ++ "M31" ++ sqStr

/-- A minimal well-formed V1 header buffer: the little-endian V1 magic
followed by zero padding through the timestamp field (112 bytes). -/
def c9Content : List Nat := V1HDR_MAGIC_LITTLE_ENDIAN ++ List.replicate 102 0

/-- The state the header decoder produces for `c9Content`. -/
def c9State : OIFHeaderRec :=
  { type := some FileRole.v1hdr, swap := some false, userarea := [],
    keywords := some [], title := some [], pixtype := some 0,
    history := some [], ndim := some 0,
    dims := some [0, 0, 0, 0, 0, 0, 0], pdims := some [0, 0, 0, 0, 0, 0, 0],
    date := some 315576000 }

/-- C1, counterexample: for the metadata line `KEYWORD = hello` the value
text `hello` is neither a boolean keyword nor an integer or float
literal, yet the keyword translator does not fall back to a String
value — the literal parse (`ast.literal_eval`) raises, so the
translation is an error, refuting the claim as stated. -/
theorem c1_counterexample :
    extractKVC "KEYWORD = hello" = Except.ok ("KEYWORD", "hello", "") ∧
    pyLower "hello" ∉ (["t", "f", "true", "false"] : List String) ∧
    literalEval "hello" = none ∧
    translateKeyword "KEYWORD = hello" =
      Except.error "ValueError: malformed node or string: hello" := by decide

/-- C1, amended: for a non-blank, non-HISTORY/COMMENT metadata line whose
extracted value text is not a boolean keyword, the translator returns
the value with surrounding quote characters stripped as a String only
when the text is a valid (quoted string) literal; when the text parses
as no literal at all, the literal parse raises and the translation
errors instead of falling back to a String. -/
theorem c1_string_fallback (key k v c s : String)
    (hkvc : extractKVC key = Except.ok (k, v, c))
    (hnb : ¬ pyStripWs key = "")
    (hnh : pyTake key 7 ∉ (["HISTORY", "COMMENT"] : List String))
    (hnbool : pyLower v ∉ (["t", "f", "true", "false"] : List String)) :
    (literalEval v = some (PyLit.lstr s) →
      translateKeyword key =
        Except.ok (some ⟨k, PyVal.pstr (stripChar v sqChar), c⟩)) ∧
    (literalEval v = none →
      translateKeyword key =
        Except.error ("ValueError: malformed node or string: " ++ v)) := by
  have hh2 : ¬ (pyTake key 7 = "HISTORY" ∨ pyTake key 7 = "COMMENT") := by
    simpa using hnh
  have hb2 : ¬ (pyLower v = "t" ∨ pyLower v = "f" ∨ pyLower v = "true" ∨
      pyLower v = "false") := by simpa using hnbool
  constructor <;> intro hle <;>
    · simp only [translateKeyword, hkvc]
      simp [hnb, hh2, hb2, hle]

/-- C1, witness: the amended theorem applied to the line
`KEYW    = 'M31'`, whose value text `'M31'` is a valid string literal;
the translator yields the quote-stripped String `M31`. -/
theorem c1_witness :
    translateKeyword c1wKey =
      Except.ok (some ⟨"KEYW", PyVal.pstr "M31", sqStr⟩) :=
  (c1_string_fallback c1wKey "KEYW" (sqStr ++ "M31" ++ sqStr) sqStr "M31"
    (by decide) (by decide) (by decide) (by decide)).1 (by decide)

/-- C2: evaluating the keyword translator at the exact line
`OBJECT  = 'M31'            / target name` yields key `OBJECT` and
value `M31`, but the comment is the empty string, not `target name`:
the source computes the comment as the single character
`key[key[st+1:].find('/')]` (a character at the slash's offset within
the remainder, which lands on a padding space) and strips it, instead
of slicing the text after the slash. -/
theorem c2_comment_bug :
    translateKeyword c2Line = Except.ok (some ⟨"OBJECT", PyVal.pstr "M31", ""⟩) ∧
    ¬ translateKeyword c2Line =
        Except.ok (some ⟨"OBJECT", PyVal.pstr "M31", "target name"⟩) := by decide

/-- C4, counterexample: for the line `HISTORY a/b` the translator does
not return the remainder verbatim with an empty comment: the
value/comment split still applies to HISTORY lines, yielding value `a`
and comment `b` (the claim predicts value ` a/b` and comment ``). -/
theorem c4_counterexample :
    translateKeyword c4Line = Except.ok (some ⟨"HISTORY", PyVal.pstr "a", "b"⟩) ∧
    ¬ translateKeyword c4Line =
        Except.ok (some ⟨"HISTORY", PyVal.pstr (pyDrop c4Line 7), ""⟩) := by decide

/-- C4, amended: for a non-blank HISTORY/COMMENT line the key field is 7
characters and type inference is bypassed — the translation always
succeeds with the extracted value kept as a String — but the value and
comment still come from the ordinary slash/quote split; only when the
remainder has no slash and no quote pair is the value the text after
the first 8 characters, trimmed, with an empty comment. -/
theorem c4_hist_comment (key k v c : String)
    (hh : pyTake key 7 ∈ (["HISTORY", "COMMENT"] : List String))
    (hnb : ¬ pyStripWs key = "")
    (hkvc : extractKVC key = Except.ok (k, v, c)) :
    translateKeyword key = Except.ok (some ⟨k, PyVal.pstr v, c⟩) ∧
    keyWidth key = 7 ∧
    (¬ (pyDrop key 8).toList.count sqChar = 2 → ¬ pyFind key '/' > 0 →
      v = pyStripWs (pyDrop key 8) ∧ c = "") := by
  have hh2 : pyTake key 7 = "HISTORY" ∨ pyTake key 7 = "COMMENT" := by
    simpa using hh
  refine ⟨?_, ?_, ?_⟩
  · simp only [translateKeyword, hkvc]
    simp [hnb, hh2]
  · simp [keyWidth, hh]
  · intro h2 h3
    have h2d : ¬ List.count sqChar (String.data (pyDrop key 8)) = 2 := h2
    rw [extractKVC] at hkvc
    simp [keyWidth, hh, h2d, h3, pure, Except.pure, Prod.ext_iff] at hkvc
    exact ⟨hkvc.2.1.symm, hkvc.2.2.symm⟩

/-- C4, witness: the amended theorem applied to `HISTORY  made of stars`
(no slash, no quote pair): the value is the trailing text after the
first 8 characters, trimmed, as a String, with empty comment. -/
theorem c4_witness :
    translateKeyword "HISTORY  made of stars" =
      Except.ok (some ⟨"HISTORY", PyVal.pstr "made of stars", ""⟩) :=
  (c4_hist_comment "HISTORY  made of stars" "HISTORY" "made of stars" ""
    (by decide) (by decide) (by decide)).1

/-- C5: the pixel-type table maps the Int16, Int32, Float32 and Float64
codes to dtypes of widths 2, 4, 4 and 8 as the claim says, but the
UInt16 code (`TY_USHORT = 11`) maps to the numpy code `'U2'`, which is
the 2-character Unicode string dtype of width 8 — not the 2-byte
unsigned integer dtype `'u2'` that the source's own comment
(`(native) unsigned short`) documents; concretely a 16-byte buffer
decodes to two 8-byte elements instead of eight unsigned shorts. -/
theorem c5_pixtype_widths :
    pixtypes 3 = some "i2" ∧ npDtypeOfCode "i2" = some ⟨NpKind.signedInt, 2⟩ ∧
    pixtypes 4 = some "i4" ∧ pixtypes 5 = some "i4" ∧
    npDtypeOfCode "i4" = some ⟨NpKind.signedInt, 4⟩ ∧
    pixtypes 6 = some "f4" ∧ npDtypeOfCode "f4" = some ⟨NpKind.floatKind, 4⟩ ∧
    pixtypes 7 = some "f8" ∧ npDtypeOfCode "f8" = some ⟨NpKind.floatKind, 8⟩ ∧
    pixtypes 11 = some "U2" ∧ npDtypeOfCode "U2" = some ⟨NpKind.unicodeStr, 8⟩ ∧
    ¬ npDtypeOfCode "U2" = some ⟨NpKind.unsignedInt, 2⟩ ∧
    readPixelsCore 11 true 1 [100, 0, 0, 0, 0, 0, 0] [4, 4, 1, 1, 1, 1, 1]
      (List.replicate 16 0) = Except.ok (Pixels.one [0, 0]) := by decide

/-- Helper: the first ten bytes of a 10-byte magic pattern followed by
anything are the pattern itself. -/
theorem take10_append (p rest : List Nat) (h : p.length = 10) :
    (p ++ rest).take 10 = p := List.take_left' h

/-- Helper: the first five of the first ten bytes of a 5-byte magic
pattern followed by anything are the pattern itself. -/
theorem take10_take5_append (p rest : List Nat) (h : p.length = 5) :
    ((p ++ rest).take 10).take 5 = p := by
  rw [List.take_take]
  exact List.take_left' h

/-- C6: for each of the six magic byte patterns the detector returns the
matching (role, needs-swap) pair — for the V1 patterns needs-swap is
true exactly when the host order differs from the order the pattern
implies, and for the V2 patterns needs-swap is provisionally the
host-is-little flag — and any buffer whose 10-byte prefix matches none
of the patterns (the V2 patterns being 5-byte prefixes) yields `none`
(the source's `(None, None)`). -/
theorem c6_magic_detector (data rest : List Nat) (hostLittle : Bool) :
    fileType (V1HDR_MAGIC_BIG_ENDIAN ++ rest) hostLittle =
        some (FileRole.v1hdr, hostLittle) ∧
    fileType (V1PIX_MAGIC_BIG_ENDIAN ++ rest) hostLittle =
        some (FileRole.v1pix, hostLittle) ∧
    fileType (V1HDR_MAGIC_LITTLE_ENDIAN ++ rest) hostLittle =
        some (FileRole.v1hdr, !hostLittle) ∧
    fileType (V1PIX_MAGIC_LITTLE_ENDIAN ++ rest) hostLittle =
        some (FileRole.v1pix, !hostLittle) ∧
    fileType (V2HDR_MAGIC ++ rest) hostLittle = some (FileRole.v2hdr, hostLittle) ∧
    fileType (V2PIX_MAGIC ++ rest) hostLittle = some (FileRole.v2pix, hostLittle) ∧
    (¬ data.take 10 = V1HDR_MAGIC_BIG_ENDIAN →
     ¬ data.take 10 = V1PIX_MAGIC_BIG_ENDIAN →
     ¬ data.take 10 = V1HDR_MAGIC_LITTLE_ENDIAN →
     ¬ data.take 10 = V1PIX_MAGIC_LITTLE_ENDIAN →
     ¬ data.take 5 = V2HDR_MAGIC →
     ¬ data.take 5 = V2PIX_MAGIC →
     fileType data hostLittle = none) := by
  have e5 : (data.take 10).take 5 = data.take 5 := by
    rw [List.take_take]
    norm_num
  have hv2h := take10_take5_append V2HDR_MAGIC rest (by decide)
  have hv2p := take10_take5_append V2PIX_MAGIC rest (by decide)
  refine ⟨?_, ?_, ?_, ?_, ?_, ?_, ?_⟩
  · simp only [fileType]
    rw [take10_append V1HDR_MAGIC_BIG_ENDIAN rest (by decide), if_pos rfl]
  · simp only [fileType]
    rw [take10_append V1PIX_MAGIC_BIG_ENDIAN rest (by decide),
      if_neg (by decide), if_pos rfl]
  · simp only [fileType]
    rw [take10_append V1HDR_MAGIC_LITTLE_ENDIAN rest (by decide),
      if_neg (by decide), if_neg (by decide), if_pos rfl]
  · simp only [fileType]
    rw [take10_append V1PIX_MAGIC_LITTLE_ENDIAN rest (by decide),
      if_neg (by decide), if_neg (by decide), if_neg (by decide), if_pos rfl]
  · have n1 : ¬ (V2HDR_MAGIC ++ rest).take 10 = V1HDR_MAGIC_BIG_ENDIAN := by
      intro h; rw [h] at hv2h; exact absurd hv2h (by decide)
    have n2 : ¬ (V2HDR_MAGIC ++ rest).take 10 = V1PIX_MAGIC_BIG_ENDIAN := by
      intro h; rw [h] at hv2h; exact absurd hv2h (by decide)
    have n3 : ¬ (V2HDR_MAGIC ++ rest).take 10 = V1HDR_MAGIC_LITTLE_ENDIAN := by
      intro h; rw [h] at hv2h; exact absurd hv2h (by decide)
    have n4 : ¬ (V2HDR_MAGIC ++ rest).take 10 = V1PIX_MAGIC_LITTLE_ENDIAN := by
      intro h; rw [h] at hv2h; exact absurd hv2h (by decide)
    simp only [fileType]
    rw [if_neg n1, if_neg n2, if_neg n3, if_neg n4, if_pos hv2h]
  · have n1 : ¬ (V2PIX_MAGIC ++ rest).take 10 = V1HDR_MAGIC_BIG_ENDIAN := by
      intro h; rw [h] at hv2p; exact absurd hv2p (by decide)
    have n2 : ¬ (V2PIX_MAGIC ++ rest).take 10 = V1PIX_MAGIC_BIG_ENDIAN := by
      intro h; rw [h] at hv2p; exact absurd hv2p (by decide)
    have n3 : ¬ (V2PIX_MAGIC ++ rest).take 10 = V1HDR_MAGIC_LITTLE_ENDIAN := by
      intro h; rw [h] at hv2p; exact absurd hv2p (by decide)
    have n4 : ¬ (V2PIX_MAGIC ++ rest).take 10 = V1PIX_MAGIC_LITTLE_ENDIAN := by
      intro h; rw [h] at hv2p; exact absurd hv2p (by decide)
    have n5 : ¬ ((V2PIX_MAGIC ++ rest).take 10).take 5 = V2HDR_MAGIC := by
      rw [hv2p]; decide
    simp only [fileType]
    rw [if_neg n1, if_neg n2, if_neg n3, if_neg n4, if_neg n5, if_pos hv2p]
  · intro h1 h2 h3 h4 h5 h6
    have h5b : ¬ (data.take 10).take 5 = V2HDR_MAGIC := by rw [e5]; exact h5
    have h6b : ¬ (data.take 10).take 5 = V2PIX_MAGIC := by rw [e5]; exact h6
    simp only [fileType]
    rw [if_neg h1, if_neg h2, if_neg h3, if_neg h4, if_neg h5b, if_neg h6b]

/-- C6, witness: the detector evaluated at the big-endian V1 header
magic itself and at an unrecognized 10-byte prefix, on a little-endian
host. -/
theorem c6_witness :
    fileType (V1HDR_MAGIC_BIG_ENDIAN ++ []) true = some (FileRole.v1hdr, true) ∧
    fileType [1, 2, 3, 4, 5, 6, 7, 8, 9, 10] true = none :=
  ⟨(c6_magic_detector [] [] true).1,
   (c6_magic_detector [1, 2, 3, 4, 5, 6, 7, 8, 9, 10] [] true).2.2.2.2.2.2
     (by decide) (by decide) (by decide) (by decide) (by decide) (by decide)⟩

/-- Like Python `split`, `pySplit` always yields at least one piece. -/
theorem pySplit_ne_nil {α : Type} [DecidableEq α] (l : List α) (c : α) :
    ¬ pySplit l c = [] := by
  induction l with
  | nil => simp [pySplit]
  | cons x xs ih =>
    rw [pySplit]
    by_cases hx : x = c
    · simp [hx]
    · rw [if_neg hx]
      rcases h : pySplit xs c with _ | ⟨hd, tl⟩ <;> simp

/-- C8: for every declared dimensionality greater than 2 the pixel
decoder never returns a pixel array (no silent truncation to 2-D), and
whenever the pixel-type code is in the known table and the buffer is a
whole number of elements, the failure is exactly the
`Images >2 dimensions not supported` error. -/
theorem c8_unsupported_ndim (ptype : Int) (big : Bool) (ndim : Int)
    (dims pdims : List Int) (data : List Nat) (h : 2 < ndim) :
    (∃ e, readPixelsCore ptype big ndim dims pdims data = Except.error e) ∧
    (∀ code dt, pixtypes ptype = some code → npDtypeOfCode code = some dt →
      data.length % dt.itemsize = 0 →
      readPixelsCore ptype big ndim dims pdims data =
        Except.error "Error: Images >2 dimensions not supported") := by
  have hn1 : ¬ ndim = 1 := by omega
  have hn2 : ¬ ndim = 2 := by omega
  constructor
  · rcases hpt : pixtypes ptype with _ | code
    · exact ⟨"KeyError: unknown pixel type code", by simp [readPixelsCore, hpt]⟩
    · rcases hdt : npDtypeOfCode code with _ | dt
      · exact ⟨"numpy: data type not understood", by simp [readPixelsCore, hpt, hdt]⟩
      · by_cases hm : data.length % dt.itemsize = 0
        · exact ⟨"Error: Images >2 dimensions not supported",
            by simp [readPixelsCore, hpt, hdt, hm, hn1, hn2]⟩
        · exact ⟨"ValueError: buffer size must be a multiple of element size",
            by simp [readPixelsCore, hpt, hdt, hm]⟩
  · intro code dt hpt hdt hm
    simp [readPixelsCore, hpt, hdt, hm, hn1, hn2]

/-- C8, witness: a 3-dimensional image with a valid pixel-type code and
an empty (trivially element-aligned) buffer produces exactly the
unsupported-dimensionality error. -/
theorem c8_witness :
    readPixelsCore 3 true 3 [1, 1, 1, 1, 1, 1, 1] [1, 1, 1, 1, 1, 1, 1] [] =
      Except.error "Error: Images >2 dimensions not supported" :=
  (c8_unsupported_ndim 3 true 3 [1, 1, 1, 1, 1, 1, 1] [1, 1, 1, 1, 1, 1, 1] []
    (by decide)).2 "i2" ⟨NpKind.signedInt, 2⟩ (by decide) (by decide) (by decide)

/-- C3, counterexample: a buffer carrying the little-endian V1 *pixel*
magic — a role that is not a header role — does not make the header
decoder fail: it returns a state whose role is `V1PIX` and whose header
fields (keywords, pixel type) were never decoded, refuting the claim
that a `MalformedHeader` error is produced. -/
theorem c3_counterexample :
    headerDecode V1PIX_MAGIC_LITTLE_ENDIAN true false =
      Except.ok (blankHeaderState (some (FileRole.v1pix, false))) ∧
    (blankHeaderState (some (FileRole.v1pix, false))).keywords = none ∧
    (blankHeaderState (some (FileRole.v1pix, false))).pixtype = none := by decide

/-- C3, amended: when the detected role is not a header role (or no role
is detected), the header decoder does not fail at all — it returns the
blank state carrying only the detected role and swap flag, with no
header field decoded. -/
theorem c3_no_header_role (content : List Nat) (hostLittle forceSwap : Bool)
    (h1 : ¬ (fileType content hostLittle).map Prod.fst = some FileRole.v1hdr)
    (h2 : ¬ (fileType content hostLittle).map Prod.fst = some FileRole.v2hdr) :
    headerDecode content hostLittle forceSwap =
      Except.ok (blankHeaderState (fileType content hostLittle)) := by
  rcases hft : fileType content hostLittle with _ | ⟨role, sw⟩
  · simp [headerDecode, hft]
  · cases role
    · rw [hft] at h1; simp at h1
    · simp [headerDecode, hft]
    · rw [hft] at h2; simp at h2
    · simp [headerDecode, hft]

/-- C3, witness: the amended theorem applied to the V2 pixel magic. -/
theorem c3_witness :
    headerDecode V2PIX_MAGIC true false =
      Except.ok (blankHeaderState (some (FileRole.v2pix, true))) :=
  c3_no_header_role V2PIX_MAGIC true false (by decide) (by decide)

/-- C10: both constructors raise their extension error for any path
whose extension is wrong (`.imh` for the header file, `.pix` for the
pixel file), and the result does not depend on the file contents — the
error fires before any byte of the file is interpreted. -/
theorem c10_extension_gates (hpath ppath : String) (content content2 : List Nat)
    (hostLittle forceSwap : Bool)
    (h1 : ¬ splitextExt (pyBasename hpath) = ".imh")
    (h2 : ¬ splitextExt (pyBasename ppath) = ".pix") :
    oifHeaderInit hpath content hostLittle forceSwap =
        Except.error "Unknown image header extension" ∧
    oifHeaderInit hpath content hostLittle forceSwap =
        oifHeaderInit hpath content2 hostLittle forceSwap ∧
    oifPixInit ppath content hostLittle forceSwap =
        Except.error "Unknown image pixfile extension" ∧
    oifPixInit ppath content hostLittle forceSwap =
        oifPixInit ppath content2 hostLittle forceSwap := by
  refine ⟨?_, ?_, ?_, ?_⟩ <;> simp [oifHeaderInit, oifPixInit, h1, h2]

/-- C10, witness: a `.fits` path is rejected by the header constructor
and an `.imh` path by the pixel constructor, for arbitrary contents. -/
theorem c10_witness :
    oifHeaderInit "dir/image.fits" [1, 2, 3] true false =
        Except.error "Unknown image header extension" ∧
    oifPixInit "dir/image.imh" [] true false =
        Except.error "Unknown image pixfile extension" :=
  ⟨(c10_extension_gates "dir/image.fits" "dir/image.imh" [1, 2, 3] [] true false
      (by decide) (by decide)).1,
   (c10_extension_gates "dir/image.fits" "dir/image.imh" [] [] true false
      (by decide) (by decide)).2.2.1⟩

/-- C9: whenever the header decoder succeeds, a V1 header's keyword list
is the newline split of the null-stripped metadata block with its last
element discarded — exactly one element fewer than the split — while a
V2 header's keyword list keeps every element of the split. -/
theorem c9_v1_discards_last_line (content : List Nat)
    (hostLittle forceSwap : Bool) (st : OIFHeaderRec)
    (h : headerDecode content hostLittle forceSwap = Except.ok st) :
    (st.type = some FileRole.v1hdr →
      st.keywords = some (((v1UserLines content).map bytesToStr).dropLast) ∧
      ((v1UserLines content).map bytesToStr).length =
        (((v1UserLines content).map bytesToStr).dropLast).length + 1) ∧
    (st.type = some FileRole.v2hdr →
      st.keywords = some ((v2UserLines content).map bytesToStr)) := by
  have hlen : ((v1UserLines content).map bytesToStr).length =
      (((v1UserLines content).map bytesToStr).dropLast).length + 1 := by
    have hne : ¬ (v1UserLines content).map bytesToStr = [] := by
      simp only [v1UserLines, List.map_eq_nil_iff]
      exact pySplit_ne_nil _ _
    rw [List.length_dropLast]
    have := List.length_pos.mpr hne
    omega
  rcases hft : fileType content hostLittle with _ | ⟨role, sw⟩
  · simp only [headerDecode, hft] at h
    replace h := h.symm
    injection h with h2
    subst h2
    constructor <;> intro hty <;> simp [blankHeaderState] at hty
  · cases role with
    | v1hdr =>
      simp only [headerDecode, hft] at h
      rcases hup : v1Unpacks content (ifmtBig hostLittle (some sw) forceSwap)
        with e | ⟨pt, nd, ds, pds, dtm⟩
      · rw [hup] at h; exact absurd h (by simp)
      · rw [hup] at h
        injection h with h2
        subst h2
        refine ⟨fun _ => ⟨?_, hlen⟩, fun hty => ?_⟩
        · simp [List.map_dropLast]
        · simp at hty
    | v1pix =>
      simp only [headerDecode, hft] at h
      injection h with h2
      subst h2
      constructor <;> intro hty <;> simp [blankHeaderState] at hty
    | v2hdr =>
      simp only [headerDecode, hft] at h
      rcases hup : v2Unpacks content (ifmtBig hostLittle (some sw) forceSwap)
        with e | ⟨pt, nd, ds, pds, dtm⟩
      · rw [hup] at h; exact absurd h (by simp)
      · rw [hup] at h
        injection h with h2
        subst h2
        refine ⟨fun hty => ?_, fun _ => ?_⟩
        · simp at hty
        · simp
    | v2pix =>
      simp only [headerDecode, hft] at h
      injection h with h2
      subst h2
      constructor <;> intro hty <;> simp [blankHeaderState] at hty

/-- C9, witness: the theorem applied to the concrete V1 header
`c9Content`, whose empty metadata block splits into one (empty) line
that the V1 path discards, leaving no keywords. -/
theorem c9_witness :
    c9State.keywords = some (((v1UserLines c9Content).map bytesToStr).dropLast) ∧
    ((v1UserLines c9Content).map bytesToStr).length =
      (((v1UserLines c9Content).map bytesToStr).dropLast).length + 1 :=
  (c9_v1_discards_last_line c9Content true false c9State (by decide)).1 (by decide)

/-- Helper: looking up position `j` of a `filterMap` whose function is
total on every element commutes with the lookup. -/
theorem filterMap_get?_all_some {α : Type} (c : Nat) (m : List (List α)) :
    ∀ (j : Nat), (∀ row ∈ m, c < row.length) →
    (m.filterMap (fun row => row.get? c)).get? j =
      (m.get? j).bind (fun row => row.get? c) := by
  induction m with
  | nil => intro j _; simp
  | cons r t ih =>
    intro j hall
    have hr : c < r.length := hall r (List.mem_cons_self r t)
    obtain ⟨a, ha⟩ : ∃ a, r.get? c = some a := by
      simp [List.get?_eq_getElem?, List.getElem?_eq_getElem hr]
    rw [List.filterMap_cons_some (by simpa using ha)]
    cases j with
    | zero => rw [List.get?_eq_getElem?] at ha; simp [ha]
    | succ j =>
      simpa using ih j (fun row hrow => hall row (List.mem_cons_of_mem r hrow))

/-- Helper: row `j` of the row-major reshape is the `j`-th `cols`-sized
piece of the flat buffer. -/
theorem npReshape_get? {α : Type} (l : List α) (rows cols j : Nat)
    (hj : j < rows) :
    (npReshape l rows cols).get? j = some ((l.drop (j * cols)).take cols) := by
  simp [npReshape, List.get?_eq_getElem?, List.getElem?_range hj]

/-- Helper: when the buffer holds exactly `rows * cols` elements, every
row of the reshape has length `cols`. -/
theorem npReshape_row_length {α : Type} (l : List α) (rows cols : Nat)
    (hlen : l.length = rows * cols) :
    ∀ row ∈ npReshape l rows cols, row.length = cols := by
  intro row hrow
  simp only [npReshape, List.mem_map, List.mem_range] at hrow
  obtain ⟨r, hr, rfl⟩ := hrow
  have hle : r * cols + cols ≤ rows * cols := by
    calc r * cols + cols = (r + 1) * cols := by ring
    _ ≤ rows * cols := Nat.mul_le_mul_right cols hr
  simp only [List.length_take, List.length_drop, hlen]
  omega

/-- Helper: element `(i, j)` of the transpose of a rectangular matrix of
row width `w` is element `(j, i)` of the matrix. -/
theorem npTranspose_get? {α : Type} (m : List (List α)) (w : Nat)
    (hw : ∀ row ∈ m, row.length = w) (hm : ¬ m = []) (i j : Nat) (hi : i < w) :
    ((npTranspose m).get? i).bind (fun row => row.get? j) =
      (m.get? j).bind (fun row => row.get? i) := by
  rcases m with _ | ⟨r, t⟩
  · exact absurd rfl hm
  · have hr : r.length = w := hw r (List.mem_cons_self r t)
    rw [show npTranspose (r :: t) = (List.range r.length).map
      (fun c => (r :: t).filterMap (fun row => row.get? c)) from rfl, hr]
    rw [List.get?_eq_getElem?, List.getElem?_map, List.getElem?_range hi]
    simp only [Option.map_some', Option.some_bind]
    exact filterMap_get?_all_some i (r :: t) j
      (fun row hrow => by rw [hw row hrow]; exact hi)

/-- Helper: a Python `[:n]` slice with a natural bound is `List.take`. -/
theorem pySliceTo_natCast {α : Type} (l : List α) (n : Nat) :
    pySliceTo l (n : Int) = l.take n := by
  simp only [pySliceTo]
  rw [if_neg (by omega)]
  simp

/-- Helper: element `(i, j)` of the transposed physical array, for a
buffer of exactly `pw * ph` elements reshaped over `ph` rows, is the
flat element at `j * pw + i`. -/
theorem physPixels_get? (raw : List Nat) (pw ph i j : Nat)
    (hlen : raw.length = pw * ph) (hph : 0 < ph) (hi : i < pw) (hj : j < ph) :
    ((physPixels raw ph).get? i).bind (fun row => row.get? j) =
      raw.get? (j * pw + i) := by
  have hcols : raw.length / ph = pw := by
    rw [hlen, Nat.mul_div_cancel pw hph]
  have hlen2 : raw.length = ph * pw := by rw [hlen]; ring
  have hrows := npReshape_row_length raw ph pw hlen2
  have hm : ¬ npReshape raw ph pw = [] := by
    simp only [npReshape, List.map_eq_nil_iff, List.range_eq_nil]
    omega
  unfold physPixels
  rw [hcols, npTranspose_get? (npReshape raw ph pw) pw hrows hm i j hi,
    npReshape_get? raw ph pw j hj]
  simp only [Option.some_bind]
  rw [List.get?_eq_getElem?, List.get?_eq_getElem?,
    List.getElem?_take_of_lt hi, List.getElem?_drop, Nat.add_comm]

/-- C7: for a 2-D image with physical dims `(pw, ph)` and logical dims
`(lw, lh)`, `lw ≤ pw`, `lh ≤ ph`, and a physical buffer of exactly
`pw * ph` elements, every in-range element `(i, j)` of the cropped
logical array equals element `(i, j)` of the transposed physical array,
which is the flat row-major element `j * pw + i` — so the crop selects
exactly the top-left `lw × lh` block and never a padded position. -/
theorem c7_crop_top_left (raw : List Nat) (pw ph lw lh i j : Nat)
    (hlen : raw.length = pw * ph) (hph : 0 < ph) (hlw : lw ≤ pw) (hlh : lh ≤ ph)
    (hi : i < lw) (hj : j < lh) :
    ((logicalPixels raw ph (lw : Int) (lh : Int)).get? i).bind
        (fun r => r.get? j) =
      ((physPixels raw ph).get? i).bind (fun r => r.get? j) ∧
    ((logicalPixels raw ph (lw : Int) (lh : Int)).get? i).bind
        (fun r => r.get? j) =
      raw.get? (j * pw + i) := by
  have hcrop : ((logicalPixels raw ph (lw : Int) (lh : Int)).get? i).bind
      (fun r => r.get? j) =
      ((physPixels raw ph).get? i).bind (fun r => r.get? j) := by
    unfold logicalPixels
    rw [pySliceTo_natCast]
    rw [List.get?_eq_getElem?, List.getElem?_map, List.getElem?_take, if_pos hi]
    rcases hp : (physPixels raw ph)[i]? with _ | row
    · simp [List.get?_eq_getElem?, hp]
    · simp only [hp, Option.map_some', Option.some_bind, List.get?_eq_getElem?]
      rw [pySliceTo_natCast, List.getElem?_take_of_lt hj]
  refine ⟨hcrop, ?_⟩
  rw [hcrop]
  exact physPixels_get? raw pw ph i j hlen hph
    (Nat.lt_of_lt_of_le hi hlw) (Nat.lt_of_lt_of_le hj hlh)

/-- C7, witness: the concrete example of the claim — `pw = 4`, `ph = 3`,
`lw = 3`, `lh = 2`, buffer `0..11` — where logical element `(0, 0)` is
the physical value at `(0, 0)` (namely `0`, flat index `0`) and logical
element `(2, 1)` is the physical value at `(2, 1)` (namely `6`, flat
index `1 * 4 + 2`). -/
theorem c7_witness :
    ((logicalPixels (List.range 12) 3 ((3 : Nat) : Int) ((2 : Nat) : Int)).get? 0).bind
        (fun r => r.get? 0) = (List.range 12).get? (0 * 4 + 0) ∧
    ((logicalPixels (List.range 12) 3 ((3 : Nat) : Int) ((2 : Nat) : Int)).get? 2).bind
        (fun r => r.get? 1) = (List.range 12).get? (1 * 4 + 2) ∧
    (List.range 12).get? (0 * 4 + 0) = some 0 ∧
    (List.range 12).get? (1 * 4 + 2) = some 6 :=
  ⟨(c7_crop_top_left (List.range 12) 4 3 3 2 0 0 (by decide) (by decide)
      (by decide) (by decide) (by decide) (by decide)).2,
   (c7_crop_top_left (List.range 12) 4 3 3 2 2 1 (by decide) (by decide)
      (by decide) (by decide) (by decide) (by decide)).2,
   by decide, by decide⟩
